import Mathlib

/-!
Shallow embedding of `simplecrypt.py` (pysimplecrypt): a Python port of the
Qt "SimpleCrypt" obfuscation codec.  Bytes are modelled as `List Nat`
(values 0–255), the 64-bit key as `Nat`, and the external Qt collaborators
(`qCompress`, `qChecksum`, SHA-1, `qrand`) as explicit function / value
parameters of the codec operations, mirroring the library calls in the
source.  Python exceptions that escape the functions (the module never
imports `qUncompress`, and the hash branch reads an undefined name `be`)
are modelled with `Except PyExc`.
-/

/-- The `CompressionMode` enum, simplecrypt.py lines 38-41. -/
inductive CompressionMode where
  | CompressionAuto
  | CompressionAlways
  | CompressionNever
deriving DecidableEq, Repr

/-- The `IntegrityProtectionMode` enum, simplecrypt.py lines 44-47. -/
inductive IntegrityProtectionMode where
  | ProtectionNone
  | ProtectionChecksum
  | ProtectionHash
deriving DecidableEq, Repr

/-- The `Error` IntEnum, simplecrypt.py lines 50-54. -/
inductive Error where
  | ErrorNoError
  | ErrorNoKeySet
  | ErrorUnknownVersion
  | ErrorIntegrityFailed
deriving DecidableEq, Repr

/-- A Python exception escaping a simplecrypt call; the only ones reachable
are `NameError`s from the two undefined names used in `decrypt_to_bytes`. -/
inductive PyExc where
  | nameError : String → PyExc
deriving DecidableEq, Repr

deriving instance DecidableEq for Except

/-- Function `split_key`, simplecrypt.py lines 80-87: for x in 0..7 the loop masks the
key to 64 bits, shifts it right by 8 bits x times (the inner
`for y in range(x, 0, -1)` loop), masks to one byte, and appends. -/
def split_key (key : Nat) : List Nat :=
  (List.range 8).map (fun x => ((key &&& 0xffffffffffffffff) >>> (8 * x)) &&& 0xff)

/-- The mutable state of a `SimpleCrypt` instance (simplecrypt.py lines
66-74): key, derived key parts, the two mode attributes and the last-error
indicator.  (The hash-length failure path of `decrypt_to_bytes` assigns to a
misspelled attribute `lastError`; that stray attribute is not part of the
modelled state since nothing ever reads it.) -/
structure SimpleCrypt where
  key : Nat
  key_parts : List Nat
  compression_mode : CompressionMode
  protection_mode : IntegrityProtectionMode
  last_error : Error
deriving DecidableEq, Repr

/-- Constructor `SimpleCrypt.__init__`, simplecrypt.py lines 66-74: modes default to
Auto / Checksum, `last_error` to NoError, `_key_parts` to `[]`, and
`split_key` runs only when the key is truthy (nonzero). -/
def SimpleCrypt.init (key : Nat) : SimpleCrypt :=
  { key := key
    key_parts := if key ≠ 0 then split_key key else []
    compression_mode := .CompressionAuto
    protection_mode := .ProtectionChecksum
    last_error := .ErrorNoError }

/-- Method `SimpleCrypt.set_key`, simplecrypt.py lines 76-78: stores the key and
unconditionally recomputes the key parts. -/
def SimpleCrypt.set_key (st : SimpleCrypt) (key : Nat) : SimpleCrypt :=
  { st with key := key, key_parts := split_key key }

/-- Model of `QDataStream.writeUInt16` with the Qt default big-endian byte order
(used at simplecrypt.py lines 116-117 to serialise the checksum). -/
def writeUInt16BE (n : Nat) : List Nat :=
  [(n >>> 8) &&& 0xff, n &&& 0xff]

/-- Model of `QDataStream.readUInt16` big-endian, reading the first two bytes
(used at simplecrypt.py lines 202-203). -/
def readUInt16BE (l : List Nat) : Nat :=
  256 * l.getD 0 0 + l.getD 1 0

/-- The encrypt XOR chain, simplecrypt.py lines 128-137:
`new = ba[pos] ^ key_parts[pos % 8] ^ last`, and `last` is updated to the
OUTPUT byte `new`.  `pos` and `last` are the loop accumulators. -/
def encryptChainAux (kp : List Nat) : List Nat → Nat → Nat → List Nat
  | [], _, _ => []
  | c :: rest, pos, last =>
      let new := c ^^^ kp.getD (pos % 8) 0 ^^^ last
      new :: encryptChainAux kp rest (pos + 1) new

/-- The encrypt chain started at position 0 with `last = 0`. -/
def encryptChain (kp : List Nat) (ba : List Nat) : List Nat :=
  encryptChainAux kp ba 0 0

/-- The decrypt XOR chain, simplecrypt.py lines 182-191:
`new = ba[pos] ^ last ^ key_parts[pos % 8]`, and `last` is updated to the
INPUT byte `curr`. -/
def decryptChainAux (kp : List Nat) : List Nat → Nat → Nat → List Nat
  | [], _, _ => []
  | c :: rest, pos, last =>
      let new := c ^^^ last ^^^ kp.getD (pos % 8) 0
      new :: decryptChainAux kp rest (pos + 1) c

/-- The decrypt chain started at position 0 with `last = 0`. -/
def decryptChain (kp : List Nat) (ba : List Nat) : List Nat :=
  decryptChainAux kp ba 0 0

/-- Nibble table of the Qt `qChecksum` (CRC-16, ISO 3309 / X-25 variant).
`qChecksum` is an external collaborator imported from PyQt5 at
simplecrypt.py line 32, not repository code; it is modelled here by the documented Qt
checksum so that the golden fixture in `__main__` (lines
226-230) can be checked concretely. -/
def crc_tbl : List Nat :=
  [0x0000, 0x1081, 0x2102, 0x3183, 0x4204, 0x5285, 0x6306, 0x7387,
   0x8408, 0x9489, 0xa50a, 0xb58b, 0xc60c, 0xd68d, 0xe70e, 0xf78f]

/-- One byte of the Qt `qChecksum`: two nibble rounds through `crc_tbl`. -/
def qChecksumStep (crc c : Nat) : Nat :=
  let crc1 := ((crc >>> 4) &&& 0x0fff) ^^^ crc_tbl.getD ((crc ^^^ c) &&& 15) 0
  ((crc1 >>> 4) &&& 0x0fff) ^^^ crc_tbl.getD ((crc1 ^^^ (c >>> 4)) &&& 15) 0

/-- The Qt `qChecksum`: CRC over the bytes starting from 0xffff, with the
final bitwise complement (`~crc & 0xffff`, here as XOR with 0xffff). -/
def qChecksum (data : List Nat) : Nat :=
  (data.foldl qChecksumStep 0xffff) ^^^ 0xffff

/-- UTF-8 encoding of one character (external collaborator:
`str.encode` at simplecrypt.py line 91). -/
def utf8EncodeChar (c : Char) : List Nat :=
  let n := c.toNat
  if n < 0x80 then [n]
  else if n < 0x800 then
    [0xc0 ||| (n >>> 6), 0x80 ||| (n &&& 0x3f)]
  else if n < 0x10000 then
    [0xe0 ||| (n >>> 12), 0x80 ||| ((n >>> 6) &&& 0x3f), 0x80 ||| (n &&& 0x3f)]
  else
    [0xf0 ||| (n >>> 18), 0x80 ||| ((n >>> 12) &&& 0x3f),
     0x80 ||| ((n >>> 6) &&& 0x3f), 0x80 ||| (n &&& 0x3f)]

/-- UTF-8 encoding of a string. -/
def utf8Encode (s : String) : List Nat :=
  (s.data.map utf8EncodeChar).flatten

/-- Base64 value of one character; `none` for characters outside the
standard alphabet (the Qt `fromBase64` skips those). -/
def b64Val (c : Char) : Option Nat :=
  let n := c.toNat
  if 65 ≤ n ∧ n ≤ 90 then some (n - 65)
  else if 97 ≤ n ∧ n ≤ 122 then some (n - 97 + 26)
  else if 48 ≤ n ∧ n ≤ 57 then some (n - 48 + 52)
  else if n = 43 then some 62
  else if n = 47 then some 63
  else none

/-- Reassemble bytes from 6-bit base64 digits. -/
def b64Bytes : List Nat → List Nat
  | a :: b :: c :: d :: rest =>
      ((a <<< 2) ||| (b >>> 4)) :: (((b &&& 15) <<< 4) ||| (c >>> 2)) ::
        (((c &&& 3) <<< 6) ||| d) :: b64Bytes rest
  | [a, b, c] =>
      [(a <<< 2) ||| (b >>> 4), ((b &&& 15) <<< 4) ||| (c >>> 2)]
  | [a, b] =>
      [(a <<< 2) ||| (b >>> 4)]
  | _ => []

/-- Model of `QByteArray.fromBase64` (external collaborator used at simplecrypt.py
line 158). -/
def fromBase64 (s : String) : List Nat :=
  b64Bytes (s.data.filterMap b64Val)

/-- The dynamic type of the argument of `encrypt_to_bytes` /
`decrypt_to_bytes`: Python `str` or `bytes` (simplecrypt.py lines 90-93 and
157-160 branch on `type(...)`). -/
inductive PyStrOrBytes where
  | str : String → PyStrOrBytes
  | bytes : List Nat → PyStrOrBytes

/-- Method `SimpleCrypt.encrypt_to_bytes`, simplecrypt.py lines 89-146, on an
already-converted byte payload.  External collaborators are parameters:
`qCompress9` is `qCompress(·, 9)`, `checksum` is `qChecksum`, `sha1` the
SHA-1 digest, `qrandByte` the value of `qrand()`.  In the Auto compression
branch the source (line 111) reads
`flags != CryptoFlag.CryptoFlagCompression.value` — a comparison whose
result is discarded — so the payload is replaced by the compressed bytes
while the flag bit is NOT set. -/
def SimpleCrypt.encrypt_to_bytes (st : SimpleCrypt)
    (qCompress9 : List Nat → List Nat) (checksum : List Nat → Nat)
    (sha1 : List Nat → List Nat) (qrandByte : Nat)
    (text : List Nat) : SimpleCrypt × List Nat :=
  if st.key_parts.length = 0 then
    ({ st with last_error := .ErrorNoKeySet }, [])
  else
    let step1 : List Nat × Nat :=
      match st.compression_mode with
      | .CompressionAlways => (qCompress9 text, 0 ||| 0x01)
      | .CompressionAuto =>
          let compressed := qCompress9 text
          if compressed.length < text.length then (compressed, 0)
          else (text, 0)
      | .CompressionNever => (text, 0)
    let ba := step1.1
    let step2 : List Nat × Nat :=
      match st.protection_mode with
      | .ProtectionChecksum => (writeUInt16BE (checksum ba), step1.2 ||| 0x02)
      | .ProtectionHash => (sha1 ba, step1.2 ||| 0x04)
      | .ProtectionNone => ([], step1.2)
    let ba2 := (qrandByte &&& 0xff) :: (step2.1 ++ ba)
    let ct := encryptChain st.key_parts ba2
    ({ st with last_error := .ErrorNoError }, 3 :: step2.2 :: ct)

/-- Method `encrypt_to_bytes` including the dynamic-type preamble of lines 90-93:
a `str` argument is UTF-8 encoded before entering the pipeline. -/
def SimpleCrypt.encrypt_to_bytes_input (st : SimpleCrypt)
    (qCompress9 : List Nat → List Nat) (checksum : List Nat → Nat)
    (sha1 : List Nat → List Nat) (qrandByte : Nat)
    (text : PyStrOrBytes) : SimpleCrypt × List Nat :=
  st.encrypt_to_bytes qCompress9 checksum sha1 qrandByte
    (match text with
     | .str s => utf8Encode s
     | .bytes b => b)

/-- Method `SimpleCrypt.decrypt_to_bytes`, simplecrypt.py lines 156-224, on a byte
blob.  The trailing common code of the source (lines 216-224: the
`integrity_ok` test, the compression branch and the final success return)
is inlined into each integrity branch, with `integrity_ok` false exactly on
the checksum-mismatch path.  Two paths evaluate names that do not exist in
the module and therefore raise `NameError`: the compression branch calls
`qUncompress` (never imported, line 221) and the hash branch reads `be`
(line 210).  The hash-trailer-too-short path (line 208) assigns to a
misspelled attribute `lastError`, so the real `last_error` field is
unchanged there; the too-short-blob path (lines 167-168) also returns
without touching `last_error`. -/
def SimpleCrypt.decrypt_to_bytes (st : SimpleCrypt)
    (checksum : List Nat → Nat) (cypher : List Nat) :
    SimpleCrypt × Except PyExc (List Nat) :=
  if st.key_parts.length = 0 then
    ({ st with last_error := .ErrorNoKeySet }, .ok [])
  else if cypher.length < 3 then
    (st, .ok [])
  else if cypher.getD 0 0 ≠ 3 then
    ({ st with last_error := .ErrorUnknownVersion }, .ok [])
  else
    let flags := cypher.getD 1 0
    let ba := (decryptChain st.key_parts (cypher.drop 2)).drop 1
    if flags &&& 0x02 ≠ 0 then
      if ba.length < 2 then
        ({ st with last_error := .ErrorIntegrityFailed }, .ok [])
      else
        let stored_checksum := readUInt16BE ba
        let ba2 := ba.drop 2
        if checksum ba2 = stored_checksum then
          if flags &&& 0x01 ≠ 0 then (st, .error (.nameError "qUncompress"))
          else ({ st with last_error := .ErrorNoError }, .ok ba2)
        else
          ({ st with last_error := .ErrorIntegrityFailed }, .ok [])
    else if flags &&& 0x04 ≠ 0 then
      if ba.length < 20 then
        (st, .ok [])
      else
        (st, .error (.nameError "be"))
    else
      if flags &&& 0x01 ≠ 0 then (st, .error (.nameError "qUncompress"))
      else ({ st with last_error := .ErrorNoError }, .ok ba)

/-- Method `decrypt_to_bytes` including the dynamic-type preamble of lines
157-160: a `str` argument is Base64-decoded before entering the
pipeline. -/
def SimpleCrypt.decrypt_to_bytes_input (st : SimpleCrypt)
    (checksum : List Nat → Nat) (cypher : PyStrOrBytes) :
    SimpleCrypt × Except PyExc (List Nat) :=
  st.decrypt_to_bytes checksum
    (match cypher with
     | .str s => fromBase64 s
     | .bytes b => b)

theorem encryptChainAux_length (kp : List Nat) (ba : List Nat) (pos last : Nat) :
    (encryptChainAux kp ba pos last).length = ba.length := by
  induction ba generalizing pos last with
  | nil => rfl
  | cons c rest ih => simp [encryptChainAux, ih]

theorem decryptChainAux_encryptChainAux (kp : List Nat) (ba : List Nat)
    (pos last : Nat) :
    decryptChainAux kp (encryptChainAux kp ba pos last) pos last = ba := by
  induction ba generalizing pos last with
  | nil => rfl
  | cons c rest ih =>
      simp only [encryptChainAux, decryptChainAux, List.cons.injEq]
      constructor
      · rw [Nat.xor_cancel_right, Nat.xor_cancel_right]
      · exact ih (pos + 1) _

theorem decryptChain_encryptChain (kp : List Nat) (ba : List Nat) :
    decryptChain kp (encryptChain kp ba) = ba :=
  decryptChainAux_encryptChainAux kp ba 0 0

/-- C3: for every 8-byte keystream and every byte sequence, the decrypt
chain transform (which updates `last` from its input byte) applied to the
output of the encrypt chain transform (which updates `last` from its output
byte) yields the original sequence. -/
theorem C3_chain_inverse (K : List Nat) (_hK : K.length = 8) (B : List Nat) :
    decryptChain K (encryptChain K B) = B :=
  decryptChain_encryptChain K B

theorem C3_chain_inverse_witness :
    ([0x11, 0x22, 0x33, 0x44, 0x55, 0x66, 0x77, 0x88] : List Nat).length = 8 ∧
    decryptChain [0x11, 0x22, 0x33, 0x44, 0x55, 0x66, 0x77, 0x88]
      (encryptChain [0x11, 0x22, 0x33, 0x44, 0x55, 0x66, 0x77, 0x88]
        [1, 2, 3, 4, 5, 6, 7, 8, 9, 10]) = [1, 2, 3, 4, 5, 6, 7, 8, 9, 10] :=
  ⟨rfl, C3_chain_inverse [0x11, 0x22, 0x33, 0x44, 0x55, 0x66, 0x77, 0x88]
    (by decide) [1, 2, 3, 4, 5, 6, 7, 8, 9, 10]⟩

/-- C6: for every 64-bit key, `split_key` yields exactly the eight bytes
`(key >>> (8*x)) &&& 0xff` for x in 0..7 — the bytes of the key in little-endian
order — and has length 8. -/
theorem C6_split_key_formula (key : Nat) (hk : key < 2 ^ 64) :
    split_key key =
      [(key >>> (8 * 0)) &&& 0xff, (key >>> (8 * 1)) &&& 0xff,
       (key >>> (8 * 2)) &&& 0xff, (key >>> (8 * 3)) &&& 0xff,
       (key >>> (8 * 4)) &&& 0xff, (key >>> (8 * 5)) &&& 0xff,
       (key >>> (8 * 6)) &&& 0xff, (key >>> (8 * 7)) &&& 0xff] ∧
    (split_key key).length = 8 := by
  have h1 : (0xffffffffffffffff : Nat) = 2 ^ 64 - 1 := by norm_num
  have hmask : key &&& 0xffffffffffffffff = key := by
    rw [h1, Nat.and_pow_two_sub_one_eq_mod, Nat.mod_eq_of_lt hk]
  refine ⟨?_, rfl⟩
  show [((key &&& 0xffffffffffffffff) >>> (8 * 0)) &&& 0xff,
        ((key &&& 0xffffffffffffffff) >>> (8 * 1)) &&& 0xff,
        ((key &&& 0xffffffffffffffff) >>> (8 * 2)) &&& 0xff,
        ((key &&& 0xffffffffffffffff) >>> (8 * 3)) &&& 0xff,
        ((key &&& 0xffffffffffffffff) >>> (8 * 4)) &&& 0xff,
        ((key &&& 0xffffffffffffffff) >>> (8 * 5)) &&& 0xff,
        ((key &&& 0xffffffffffffffff) >>> (8 * 6)) &&& 0xff,
        ((key &&& 0xffffffffffffffff) >>> (8 * 7)) &&& 0xff] = _
  rw [hmask]

theorem C6_split_key_formula_witness :
    0x0123456789abcdef < 2 ^ 64 ∧
    split_key 0x0123456789abcdef = [0xef, 0xcd, 0xab, 0x89, 0x67, 0x45, 0x23, 0x01] ∧
    (split_key 0x0123456789abcdef).length = 8 :=
  ⟨by norm_num,
   ((C6_split_key_formula 0x0123456789abcdef (by norm_num)).1).trans (by decide),
   (C6_split_key_formula 0x0123456789abcdef (by norm_num)).2⟩

/-- C10: `encrypt_to_bytes` on a `str` argument produces, for the same key,
modes, collaborators and random byte, exactly the blob it produces on the
UTF-8 encoding of that string passed as `bytes`. -/
theorem C10_str_is_utf8_bytes (st : SimpleCrypt)
    (qCompress9 : List Nat → List Nat) (checksum : List Nat → Nat)
    (sha1 : List Nat → List Nat) (qrandByte : Nat) (s : String) :
    st.encrypt_to_bytes_input qCompress9 checksum sha1 qrandByte (.str s) =
      st.encrypt_to_bytes_input qCompress9 checksum sha1 qrandByte
        (.bytes (utf8Encode s)) :=
  rfl

/-- C1: the round-trip claim fails on the code.  With compression mode
Always (and protection None), `encrypt_to_bytes` sets the compression flag,
so `decrypt_to_bytes` reaches `ba = qUncompress(ba)` (line 221) — but the
module never imports `qUncompress`, so the call raises `NameError` instead
of returning the plaintext.  Here key = 0x0123456789abcdef, plaintext =
[97], qCompress modelled as a 4-byte length prefix plus the data, random
byte 42. -/
theorem C1_roundtrip_fails_always_mode :
    (({ SimpleCrypt.init 0x0123456789abcdef with
        compression_mode := .CompressionAlways,
        protection_mode := .ProtectionNone } : SimpleCrypt).decrypt_to_bytes
      (fun _ => 0)
      (({ SimpleCrypt.init 0x0123456789abcdef with
          compression_mode := .CompressionAlways,
          protection_mode := .ProtectionNone } : SimpleCrypt).encrypt_to_bytes
        (fun b => [0, 0, 0, 1] ++ b) (fun _ => 0) (fun _ => []) 42 [97]).2).2
      = .error (.nameError "qUncompress") := by decide

/-- C2: under Auto compression with a payload the compressor shrinks, the
code stores the COMPRESSED bytes as the payload yet leaves the flags byte
of the blob equal to 0 — the flag bit 0x01 is never set, because line 111
reads `flags != ...` (a discarded comparison) instead of `flags |= ...`.
Key 1, protection None, payload = five zero bytes, compressor output
[0, 0, 0, 1] (shorter), random byte 0. -/
theorem C2_auto_uses_compressed_but_flag_clear :
    (({ SimpleCrypt.init 1 with
        protection_mode := .ProtectionNone } : SimpleCrypt).encrypt_to_bytes
        (fun _ => [0, 0, 0, 1]) (fun _ => 0) (fun _ => []) 0
        (List.replicate 5 0)).2
      = 3 :: 0 :: encryptChain (split_key 1) (0 :: [0, 0, 0, 1]) ∧
    ((({ SimpleCrypt.init 1 with
        protection_mode := .ProtectionNone } : SimpleCrypt).encrypt_to_bytes
        (fun _ => [0, 0, 0, 1]) (fun _ => 0) (fun _ => []) 0
        (List.replicate 5 0)).2.getD 1 0) &&& 0x01 = 0 := by decide

/-- C4: on a blob with the hash flag (0x04) set and 20 bytes remaining
after the random byte, `decrypt_to_bytes` does not extract the stored
trailer and verify it — line 210 reads the undefined name `be`, raising
`NameError`; the state (including `last_error`) is left untouched. -/
theorem C4_hash_branch_raises_name_error :
    ((SimpleCrypt.init 1).decrypt_to_bytes (fun _ => 0)
        (3 :: 4 :: List.replicate 21 0)).2 = .error (.nameError "be") ∧
    ((SimpleCrypt.init 1).decrypt_to_bytes (fun _ => 0)
        (3 :: 4 :: List.replicate 21 0)).1 = SimpleCrypt.init 1 := by decide

/-- C5: `decrypt_to_bytes` does raise an exception across the API boundary:
a well-formed version-3 blob with the compression flag set reaches
`qUncompress`, which the module never imports, so the call raises
`NameError` rather than returning a failure indicator plus an empty byte
sequence. -/
theorem C5_decrypt_raises_name_error :
    ((SimpleCrypt.init 1).decrypt_to_bytes (fun _ => 0) [3, 1, 0]).2
      = .error (.nameError "qUncompress") := by decide

/-- C7 counterexample: re-keying to 0 via `set_key` does NOT leave the
schedule empty (`split_key` runs unconditionally and yields eight zero
bytes), and a subsequent `encrypt_to_bytes` call does not fail with
NoKeySet — it succeeds with `last_error = NoError` and non-empty output. -/
theorem C7_counterexample :
    ((SimpleCrypt.init 5).set_key 0).key_parts ≠ [] ∧
    (((SimpleCrypt.init 5).set_key 0).encrypt_to_bytes (fun b => b)
        (fun _ => 0) (fun _ => []) 0 [7]).1.last_error = .ErrorNoError ∧
    (((SimpleCrypt.init 5).set_key 0).encrypt_to_bytes (fun b => b)
        (fun _ => 0) (fun _ => []) 0 [7]).2 ≠ [] := by decide

/-- C7 amended: a codec CONSTRUCTED with key 0 has an empty key schedule,
and on it every `encrypt_to_bytes` / `decrypt_to_bytes` call fails fast
with NoKeySet and empty output; but re-keying to 0 via `set_key` yields a
schedule of eight zero bytes (NOT the empty sequence), and encrypt calls on
such a codec do not fail with NoKeySet — they complete with
`last_error = NoError`. -/
theorem C7_amended :
    (SimpleCrypt.init 0).key_parts = [] ∧
    (∀ (qCompress9 : List Nat → List Nat) (checksum : List Nat → Nat)
        (sha1 : List Nat → List Nat) (qrandByte : Nat) (text : List Nat),
        (SimpleCrypt.init 0).encrypt_to_bytes qCompress9 checksum sha1 qrandByte
            text =
          ({ SimpleCrypt.init 0 with last_error := .ErrorNoKeySet }, [])) ∧
    (∀ (checksum : List Nat → Nat) (cypher : List Nat),
        (SimpleCrypt.init 0).decrypt_to_bytes checksum cypher =
          ({ SimpleCrypt.init 0 with last_error := .ErrorNoKeySet }, .ok [])) ∧
    (∀ st : SimpleCrypt, (st.set_key 0).key_parts = List.replicate 8 0) ∧
    (∀ (st : SimpleCrypt) (qCompress9 : List Nat → List Nat)
        (checksum : List Nat → Nat) (sha1 : List Nat → List Nat)
        (qrandByte : Nat) (text : List Nat),
        ((st.set_key 0).encrypt_to_bytes qCompress9 checksum sha1 qrandByte
            text).1.last_error = .ErrorNoError) := by
  refine ⟨rfl, fun _ _ _ _ _ => rfl, fun _ _ => rfl, fun st => rfl, ?_⟩
  intro st qc cs sh r text
  have h : ¬ (st.set_key 0).key_parts.length = 0 := by
    show ¬ (split_key 0).length = 0
    decide
  unfold SimpleCrypt.encrypt_to_bytes
  rw [if_neg h]

/-- C9 counterexample: a freshly keyed codec has `last_error = NoError`;
decrypting the empty (too-short) blob fails — it returns the empty result —
yet `last_error` is left at `NoError` (lines 167-168 return without setting
the indicator), so the indicator claims success after a failed decode. -/
theorem C9_counterexample :
    (SimpleCrypt.init 1).decrypt_to_bytes (fun _ => 0) [] =
      (SimpleCrypt.init 1, .ok []) ∧
    (SimpleCrypt.init 1).last_error = .ErrorNoError := by decide

/-- C9 amended: after every encrypt call `last_error` reflects the outcome
(NoKeySet or NoError).  After a decrypt call it reflects the outcome —
NoKeySet, UnknownVersion, IntegrityFailed on checksum-trailer-too-short or
checksum mismatch, NoError on success — EXCEPT that these paths leave it
unchanged from before the call: the too-short (< 3 bytes) blob path, the
whole hash-protection branch (both the too-short-trailer check, which
assigns a misspelled attribute, and the path that raises `NameError`), and
the paths that raise `NameError` at the `qUncompress` call. -/
theorem C9_amended (st : SimpleCrypt)
    (qCompress9 : List Nat → List Nat) (checksum : List Nat → Nat)
    (sha1 : List Nat → List Nat) (qrandByte : Nat)
    (text cypher : List Nat) :
    ((st.encrypt_to_bytes qCompress9 checksum sha1 qrandByte text).1.last_error
       = if st.key_parts.length = 0 then .ErrorNoKeySet else .ErrorNoError) ∧
    ((st.decrypt_to_bytes checksum cypher).1.last_error =
      if st.key_parts.length = 0 then .ErrorNoKeySet
      else if cypher.length < 3 then st.last_error
      else if cypher.getD 0 0 ≠ 3 then .ErrorUnknownVersion
      else
        if cypher.getD 1 0 &&& 0x02 ≠ 0 then
          if ((decryptChain st.key_parts (cypher.drop 2)).drop 1).length < 2 then
            .ErrorIntegrityFailed
          else if checksum (((decryptChain st.key_parts (cypher.drop 2)).drop 1).drop 2)
              = readUInt16BE ((decryptChain st.key_parts (cypher.drop 2)).drop 1) then
            (if cypher.getD 1 0 &&& 0x01 ≠ 0 then st.last_error else .ErrorNoError)
          else .ErrorIntegrityFailed
        else if cypher.getD 1 0 &&& 0x04 ≠ 0 then st.last_error
        else if cypher.getD 1 0 &&& 0x01 ≠ 0 then st.last_error
        else .ErrorNoError) := by
  constructor
  · unfold SimpleCrypt.encrypt_to_bytes
    split <;> rfl
  · simp only [SimpleCrypt.decrypt_to_bytes]
    by_cases h1 : st.key_parts.length = 0
    · rw [if_pos h1, if_pos h1]
    · rw [if_neg h1, if_neg h1]
      by_cases h2 : cypher.length < 3
      · rw [if_pos h2, if_pos h2]
      · rw [if_neg h2, if_neg h2]
        by_cases h3 : cypher.getD 0 0 ≠ 3
        · rw [if_pos h3, if_pos h3]
        · rw [if_neg h3, if_neg h3]
          by_cases h4 : cypher.getD 1 0 &&& 2 ≠ 0
          · rw [if_pos h4, if_pos h4]
            by_cases h5 : ((decryptChain st.key_parts (cypher.drop 2)).drop 1).length < 2
            · rw [if_pos h5, if_pos h5]
            · rw [if_neg h5, if_neg h5]
              by_cases h6 : checksum (((decryptChain st.key_parts (cypher.drop 2)).drop 1).drop 2)
                  = readUInt16BE ((decryptChain st.key_parts (cypher.drop 2)).drop 1)
              · rw [if_pos h6, if_pos h6]
                by_cases h7 : cypher.getD 1 0 &&& 1 ≠ 0
                · rw [if_pos h7, if_pos h7]
                · rw [if_neg h7, if_neg h7]
              · rw [if_neg h6, if_neg h6]
          · rw [if_neg h4, if_neg h4]
            by_cases h8 : cypher.getD 1 0 &&& 4 ≠ 0
            · rw [if_pos h8, if_pos h8]
              split <;> rfl
            · rw [if_neg h8, if_neg h8]
              by_cases h9 : cypher.getD 1 0 &&& 1 ≠ 0
              · rw [if_pos h9, if_pos h9]
              · rw [if_neg h9, if_neg h9]

theorem readUInt16BE_writeUInt16BE (n : Nat) (rest : List Nat) (h : n < 65536) :
    readUInt16BE (writeUInt16BE n ++ rest) = n := by
  show 256 * ((n >>> 8) &&& 0xff) + (n &&& 0xff) = n
  have h8 : (0xff : Nat) = 2 ^ 8 - 1 := by norm_num
  rw [h8, Nat.and_pow_two_sub_one_eq_mod, Nat.and_pow_two_sub_one_eq_mod,
    Nat.shiftRight_eq_div_pow]
  have h2 : (2 : Nat) ^ 8 = 256 := by norm_num
  rw [h2]
  omega

theorem roundtrip_auto_checksum (st : SimpleCrypt)
    (hmode : st.compression_mode = .CompressionAuto)
    (hprot : st.protection_mode = .ProtectionChecksum)
    (hkp : st.key_parts.length ≠ 0)
    (qCompress9 : List Nat → List Nat) (checksum : List Nat → Nat)
    (sha1 : List Nat → List Nat) (r : Nat) (text : List Nat)
    (hno : ¬ (qCompress9 text).length < text.length)
    (hcs : checksum text < 65536) :
    (st.decrypt_to_bytes checksum
      (st.encrypt_to_bytes qCompress9 checksum sha1 r text).2).2 = .ok text := by
  have henc : (st.encrypt_to_bytes qCompress9 checksum sha1 r text).2
      = 3 :: 2 :: encryptChain st.key_parts
          ((r &&& 255) :: (writeUInt16BE (checksum text) ++ text)) := by
    unfold SimpleCrypt.encrypt_to_bytes
    rw [if_neg hkp]
    simp only [hmode, hprot]
    rw [if_neg hno]
    simp only [Nat.zero_or]
  rw [henc]
  simp only [SimpleCrypt.decrypt_to_bytes]
  rw [if_neg hkp]
  have hctlen : (encryptChain st.key_parts
      ((r &&& 255) :: (writeUInt16BE (checksum text) ++ text))).length
      = 3 + text.length := by
    show (encryptChainAux _ _ _ _).length = _
    rw [encryptChainAux_length]
    simp [writeUInt16BE]
    omega
  rw [if_neg (by simp only [List.length_cons, hctlen]; omega)]
  rw [show (3 :: 2 :: encryptChain st.key_parts
      ((r &&& 255) :: (writeUInt16BE (checksum text) ++ text))).getD 0 0 = 3 from rfl]
  rw [show (3 :: 2 :: encryptChain st.key_parts
      ((r &&& 255) :: (writeUInt16BE (checksum text) ++ text))).getD 1 0 = 2 from rfl]
  rw [if_neg (by decide : ¬ (3 : Nat) ≠ 3)]
  rw [show (2 : Nat) &&& 2 = 2 from rfl]
  rw [show (2 : Nat) &&& 1 = 0 from rfl]
  rw [show List.drop 2 (3 :: 2 :: encryptChain st.key_parts
      ((r &&& 255) :: (writeUInt16BE (checksum text) ++ text)))
      = encryptChain st.key_parts
        ((r &&& 255) :: (writeUInt16BE (checksum text) ++ text)) from rfl]
  rw [show decryptChain st.key_parts (encryptChain st.key_parts
      ((r &&& 255) :: (writeUInt16BE (checksum text) ++ text)))
      = (r &&& 255) :: (writeUInt16BE (checksum text) ++ text)
    from decryptChain_encryptChain _ _]
  rw [show List.drop 1 ((r &&& 255) :: (writeUInt16BE (checksum text) ++ text))
      = writeUInt16BE (checksum text) ++ text from rfl]
  rw [if_pos (by decide : (2 : Nat) ≠ 0)]
  rw [if_neg (by
    simp only [writeUInt16BE, List.length_append, List.length_cons, List.length_nil]
    omega)]
  rw [show List.drop 2 (writeUInt16BE (checksum text) ++ text) = text from rfl]
  rw [if_pos ((readUInt16BE_writeUInt16BE (checksum text) text hcs).symm)]
  rw [if_neg (by decide : ¬ (0 : Nat) ≠ 0)]

/-- C8: under key 0x0123456789abcdef with the default configuration
(checksum protection, compression Auto), (a) for every compressor that does
not shrink the 4-byte input "abcd" (real qCompress expands it) and every
random byte, decrypt of encrypt returns "abcd" (bytes [97, 98, 99, 100]);
and (b) the literal Base64 blob "AwLohkauq43K" decrypts to "abcd" under the
same key and configuration, with qChecksum modelled as the Qt CRC-16. -/
theorem C8_concrete_vector :
    (∀ (qCompress9 : List Nat → List Nat) (sha1 : List Nat → List Nat)
        (qrandByte : Nat),
        ¬ (qCompress9 [97, 98, 99, 100]).length < ([97, 98, 99, 100] : List Nat).length →
        ((SimpleCrypt.init 0x0123456789abcdef).decrypt_to_bytes qChecksum
          ((SimpleCrypt.init 0x0123456789abcdef).encrypt_to_bytes qCompress9 qChecksum
            sha1 qrandByte [97, 98, 99, 100]).2).2 = .ok [97, 98, 99, 100]) ∧
    ((SimpleCrypt.init 0x0123456789abcdef).decrypt_to_bytes_input qChecksum
      (.str "AwLohkauq43K")).2 = .ok [97, 98, 99, 100] := by
  constructor
  · intro qCompress9 sha1 qrandByte h
    exact roundtrip_auto_checksum _ rfl rfl (by decide) qCompress9 qChecksum sha1
      qrandByte [97, 98, 99, 100] h (by decide)
  · decide

theorem C8_concrete_vector_witness :
    (¬ ((fun (b : List Nat) => 0 :: b) [97, 98, 99, 100]).length
        < ([97, 98, 99, 100] : List Nat).length) ∧
    ((SimpleCrypt.init 0x0123456789abcdef).decrypt_to_bytes qChecksum
      ((SimpleCrypt.init 0x0123456789abcdef).encrypt_to_bytes (fun b => 0 :: b)
        qChecksum (fun _ => []) 7 [97, 98, 99, 100]).2).2 = .ok [97, 98, 99, 100] :=
  ⟨by decide, C8_concrete_vector.1 (fun b => 0 :: b) (fun _ => []) 7 (by decide)⟩
